import Mathlib

/-!
Verification of the ensemble fire-spread engine
(`src/pipeline/spread/baseline.py` and `src/pipeline/spread/monte_carlo.py`).

Shallow embedding conventions:
* a numpy 2-D float array of shape `(H, W)` is modelled as a function
  `Grid = ℕ → ℕ → ℚ` together with the explicit shape parameters `H W : ℕ`;
  only the values at indices `i < H`, `j < W` correspond to array cells;
* `np.sqrt` is modelled by an abstract parameter `sq : ℚ → ℚ`; theorems that
  need properties of the square root take them as hypotheses, and concrete
  witnesses instantiate `sq` with the computable `ratSqrt` below;
* the numpy global pseudo-random generator is modelled by an abstract stream
  `rng : ℕ → ℕ → ℚ`, where `rng seed k` is the `k`-th standard-uniform draw
  produced after `np.random.seed(seed)`; `np.random.uniform(lo, hi, shape)`
  consumes one draw per cell in row-major order, turning the standard draw
  `u` into `lo + (hi - lo) * u`;
* a python `dict`-shaped configuration read through `config.get(key, default)`
  is modelled by a structure with one field per recognized key, each field
  carrying the source default;
* the `rasterio` affine transform together with `rasterio.transform.rowcol`
  is modelled by an abstract function `rowcol : ℚ × ℚ → Except Unit (ℤ × ℤ)`
  from a (longitude, latitude) pair to a (row, col) pair; `Except.error`
  models a coordinate transformation that raises.
-/

/-- numpy `np.clip(x, lo, hi) = minimum(hi, maximum(lo, x))`. -/
def clip (x lo hi : ℚ) : ℚ := min (max x lo) hi

/-- Computable stand-in for `np.sqrt` on rationals, used to instantiate the
abstract square-root parameter in concrete witnesses; it is exact on squares
of nonnegative rationals (which covers every concrete input used below). -/
def ratSqrt (q : ℚ) : ℚ := (Nat.sqrt (q.num.toNat * q.den) : ℚ) / (q.den : ℚ)

/-- Configuration dictionary as consumed through `config.get(key, default)`
by `baseline.py` and `monte_carlo.py`; defaults are the source defaults.
The key `wind_norm_max` is listed in the spec's configuration surface, so the
dictionary may carry it; whether the code reads it is settled by claim C8. -/
structure Config where
  wind_weight : ℚ := 1/2
  slope_weight : ℚ := 3/10
  dryness_weight : ℚ := 1/5
  slope_max_deg : ℚ := 45
  rh_dry_threshold : ℚ := 30
  wind_norm_max : ℚ := 20
  spread_threshold : ℚ := 3/10
  neighbors : ℕ := 8
  seed_strength : ℚ := 1
  wind_perturbation : ℚ := 1/5
  temp_perturbation : ℚ := 1/20
  rh_perturbation : ℚ := 1/10

/-- A 2-D float array; cells are the values at `i < H`, `j < W`. -/
abbrev Grid : Type := ℕ → ℕ → ℚ

/-- Single-cell update `grid[r, c] = v` of a numpy array. -/
def setCell (g : Grid) (r c : ℕ) (v : ℚ) : Grid :=
  fun i j => if i = r ∧ j = c then v else g i j

/-- Fold step of the detection loop of `initialize_grid` (baseline.py:39-50):
`rowcol` failure is caught and skipped; an in-range (row, col) sets the cell
to `seed_strength`; an out-of-range one is skipped. -/
def placeHotspot (rowcol : ℚ × ℚ → Except Unit (ℤ × ℤ)) (H W : ℕ)
    (seed_strength : ℚ) (g : Grid) (h : ℚ × ℚ) : Grid :=
  match rowcol h with
  | Except.error _ => g
  | Except.ok (r, c) =>
      if 0 ≤ r ∧ r < (H : ℤ) ∧ 0 ≤ c ∧ c < (W : ℤ) then
        setCell g r.toNat c.toNat seed_strength
      else g

/-- `initialize_grid` (baseline.py:16-53): zero grid, then one placement
attempt per detection, in order. -/
def initialize_grid (hotspots : List (ℚ × ℚ))
    (rowcol : ℚ × ℚ → Except Unit (ℤ × ℤ)) (H W : ℕ)
    (seed_strength : ℚ) : Grid :=
  hotspots.foldl (placeHotspot rowcol H W seed_strength) (fun _ _ => 0)

/-- `compute_spread_potential` (baseline.py:56-99), with `np.sqrt` abstracted
as `sq`.  The source hardcodes the wind normalization constant `20.0`
(baseline.py:83) and, although it reads `rh_dry_threshold` into a local, never
uses it in the dryness factor (baseline.py:89-90). -/
def compute_spread_potential (sq : ℚ → ℚ) (wind_u wind_v slope rh : Grid)
    (config : Config) : Grid :=
  fun i j =>
    let wind_speed := sq (wind_u i j ^ 2 + wind_v i j ^ 2)
    let wind_factor := clip (wind_speed / 20) 0 1
    let slope_factor := clip (slope i j / config.slope_max_deg) 0 1
    let dryness_factor := clip ((100 - rh i j) / 100) 0 1
    clip (config.wind_weight * wind_factor + config.slope_weight * slope_factor
      + config.dryness_weight * dryness_factor) 0 1

/-- Structuring element of the dilation (baseline.py:124-129): the cross for
`neighbors == 4`, the full 3×3 block otherwise, as relative offsets. -/
def structOffsets (neighbors : ℕ) : List (ℤ × ℤ) :=
  if neighbors = 4 then [(-1, 0), (0, -1), (0, 0), (0, 1), (1, 0)]
  else [(-1, -1), (-1, 0), (-1, 1), (0, -1), (0, 0), (0, 1), (1, -1), (1, 0), (1, 1)]

/-- `binary_dilation(active_mask, structure)` at cell `(i, j)`
(baseline.py:131): true iff some in-bounds cell at one of the structuring
offsets is active (`> 0`); scipy pads with zeros outside the array. -/
def neighborMask (H W : ℕ) (g : Grid) (neighbors : ℕ) (i j : ℕ) : Bool :=
  (structOffsets neighbors).any fun d =>
    let i2 : ℤ := (i : ℤ) + d.1
    let j2 : ℤ := (j : ℤ) + d.2
    decide (0 ≤ i2) && decide (i2 < (H : ℤ)) && decide (0 ≤ j2)
      && decide (j2 < (W : ℤ)) && decide (0 < g i2.toNat j2.toNat)

/-- `can_spread` mask (baseline.py:134): potential above threshold, adjacent
to an active cell, not itself active; only cells of the array exist, hence the
bounds conjuncts. -/
def canSpread (H W : ℕ) (g pot : Grid) (threshold : ℚ) (neighbors : ℕ)
    (i j : ℕ) : Bool :=
  decide (i < H) && decide (j < W) && decide (threshold < pot i j)
    && neighborMask H W g neighbors i j && !(decide (0 < g i j))

/-- `propagate_spread` (baseline.py:102-140): cells in the `can_spread` mask
take their potential value, every other cell keeps its current value. -/
def propagate_spread (H W : ℕ) (current_grid spread_potential : Grid)
    (threshold : ℚ) (neighbors : ℕ) : Grid :=
  fun i j =>
    if canSpread H W current_grid spread_potential threshold neighbors i j then
      spread_potential i j
    else current_grid i j

/-- One iteration of the time loop of `run_baseline_spread`
(baseline.py:183-193), acting on the pair (current_grid, max_grid):
`current_grid = propagate_spread(...)` then
`max_grid = np.maximum(max_grid, current_grid)`. -/
def stepPair (F : Grid → Grid) (s : Grid × Grid) : Grid × Grid :=
  (F s.1, fun i j => max (s.2 i j) (F s.1 i j))

/-- `run_baseline_spread` (baseline.py:143-203): seed, compute the static
potential, run `n_timesteps` propagation steps keeping a running elementwise
maximum, return (final grid, max grid).  `n_timesteps` is an `int`;
`range(n)` of a negative `n` is empty, modelled by `Int.toNat`. -/
def run_baseline_spread (hotspots : List (ℚ × ℚ))
    (rowcol : ℚ × ℚ → Except Unit (ℤ × ℤ)) (wind_u wind_v slope rh : Grid)
    (H W : ℕ) (config : Config) (n_timesteps : ℤ) (sq : ℚ → ℚ) :
    Grid × Grid :=
  let g0 := initialize_grid hotspots rowcol H W config.seed_strength
  let pot := compute_spread_potential sq wind_u wind_v slope rh config
  (stepPair (fun g => propagate_spread H W g pot config.spread_threshold
    config.neighbors))^[n_timesteps.toNat] (g0, g0)

/-- `np.random.uniform(lo, hi)` applied to one standard-uniform draw `u`. -/
def uniformDraw (lo hi u : ℚ) : ℚ := lo + (hi - lo) * u

/-- `perturb_weather` (monte_carlo.py:16-54): after `np.random.seed(seed)`,
four row-major `uniform(-f, f, shape)` calls consume consecutive draws of the
stream `rng seed`; each field is scaled by `1 + draw`, and the perturbed
relative humidity is clipped to `[0, 100]`. -/
def perturb_weather (wind_u wind_v temp rh : Grid) (config : Config)
    (seed : ℕ) (H W : ℕ) (rng : ℕ → ℕ → ℚ) : Grid × Grid × Grid × Grid :=
  let wp := config.wind_perturbation
  let tp := config.temp_perturbation
  let rp := config.rh_perturbation
  let wind_u_pert : Grid := fun i j =>
    wind_u i j * (1 + uniformDraw (-wp) wp (rng seed (i * W + j)))
  let wind_v_pert : Grid := fun i j =>
    wind_v i j * (1 + uniformDraw (-wp) wp (rng seed (H * W + (i * W + j))))
  let temp_pert_val : Grid := fun i j =>
    temp i j * (1 + uniformDraw (-tp) tp (rng seed (2 * (H * W) + (i * W + j))))
  let rh_pert_val : Grid := fun i j =>
    clip (rh i j * (1 + uniformDraw (-rp) rp (rng seed (3 * (H * W) + (i * W + j))))) 0 100
  (wind_u_pert, wind_v_pert, temp_pert_val, rh_pert_val)

/-- Ensemble member `i` of `run_monte_carlo_ensemble` (monte_carlo.py:97-116):
perturb the weather with seed `base_seed + i`, run the baseline model on the
perturbed fields, keep its `max_grid`. -/
def mcMember (hotspots : List (ℚ × ℚ))
    (rowcol : ℚ × ℚ → Except Unit (ℤ × ℤ)) (wind_u wind_v temp slope rh : Grid)
    (H W : ℕ) (model_config mc_config : Config) (base_seed : ℕ)
    (n_timesteps : ℤ) (rng : ℕ → ℕ → ℚ) (sq : ℚ → ℚ) (i : ℕ) : Grid :=
  let p := perturb_weather wind_u wind_v temp rh mc_config (base_seed + i) H W rng
  (run_baseline_spread hotspots rowcol p.1 p.2.1 slope p.2.2.2 H W model_config
    n_timesteps sq).2

/-- `run_monte_carlo_ensemble` (monte_carlo.py:57-132): run the members, then
reduce across the member axis — `probability` is the fraction of members in
which the cell burned, `mean_intensity` the mean of the member grids, and
`uncertainty` the population standard deviation `np.std`, i.e. the square
root of the mean squared deviation from the member mean. -/
def run_monte_carlo_ensemble (hotspots : List (ℚ × ℚ))
    (rowcol : ℚ × ℚ → Except Unit (ℤ × ℤ)) (wind_u wind_v temp slope rh : Grid)
    (H W : ℕ) (model_config mc_config : Config) (n_ensemble : ℕ)
    (base_seed : ℕ) (n_timesteps : ℤ) (rng : ℕ → ℕ → ℚ) (sq : ℚ → ℚ) :
    Grid × Grid × Grid :=
  let members := (List.range n_ensemble).map
    (mcMember hotspots rowcol wind_u wind_v temp slope rh H W model_config
      mc_config base_seed n_timesteps rng sq)
  let probability : Grid := fun i j =>
    ((members.countP fun m => decide (0 < m i j)) : ℚ) / (n_ensemble : ℚ)
  let mean_intensity : Grid := fun i j =>
    (members.map fun m => m i j).sum / (n_ensemble : ℚ)
  let uncertainty : Grid := fun i j =>
    sq ((members.map fun m => (m i j - mean_intensity i j) ^ 2).sum / (n_ensemble : ℚ))
  (probability, mean_intensity, uncertainty)

/-- Spread potential as the spec's §4.1 words describe it, for comparison
with the source's `compute_spread_potential` (claim C8): identical except
that the wind factor divides by the configured `wind_norm_max` instead of a
fixed constant. -/
def compute_spread_potential_spec (sq : ℚ → ℚ) (wind_u wind_v slope rh : Grid)
    (config : Config) : Grid :=
  fun i j =>
    let wind_speed := sq (wind_u i j ^ 2 + wind_v i j ^ 2)
    let wind_factor := clip (wind_speed / config.wind_norm_max) 0 1
    let slope_factor := clip (slope i j / config.slope_max_deg) 0 1
    let dryness_factor := clip ((100 - rh i j) / 100) 0 1
    clip (config.wind_weight * wind_factor + config.slope_weight * slope_factor
      + config.dryness_weight * dryness_factor) 0 1

/-!
Store-level embedding for the frame property (claim C10).  numpy arrays are
heap objects; `propagate_spread` and `run_baseline_spread` are re-embedded as
programs over an explicit store, with one address per array, so that "the
function does not mutate its argument arrays" is a theorem about the final
store rather than a by-construction fact of the pure embedding.  Allocation
models `np.zeros` / `.copy()` / the fresh result arrays of `binary_dilation`,
`np.maximum` and the arithmetic operators; the only element assignment in the
source, `new_grid[can_spread] = spread_potential[can_spread]`
(baseline.py:138), is an in-place write, so it is modelled by `swrite`.
-/

/-- Heap of 2-D arrays addressed by allocation order; `next` is the first
unused address. -/
structure Store where
  heap : ℕ → Grid
  next : ℕ

/-- Allocate a fresh array holding the values `v`; returns the new store and
the fresh address. -/
def salloc (σ : Store) (v : Grid) : Store × ℕ :=
  ({ heap := fun a => if a = σ.next then v else σ.heap a, next := σ.next + 1 }, σ.next)

/-- Overwrite the array at address `a` (in-place mutation). -/
def swrite (σ : Store) (a : ℕ) (v : Grid) : Store :=
  { σ with heap := fun b => if b = a then v else σ.heap b }

/-- Store-level `propagate_spread` (baseline.py:102-140): read the two input
arrays, allocate `new_grid = current_grid.copy()`, perform the masked
assignment in place on `new_grid`, return its address. -/
def propagate_spread_st (σ : Store) (aCur aPot : ℕ) (H W : ℕ)
    (threshold : ℚ) (neighbors : ℕ) : Store × ℕ :=
  let cur := σ.heap aCur
  let pot := σ.heap aPot
  let s1 := salloc σ cur
  let σ1 := s1.1
  let aNew := s1.2
  let σ2 := swrite σ1 aNew fun i j =>
    if canSpread H W cur pot threshold neighbors i j then pot i j
    else σ1.heap aNew i j
  (σ2, aNew)

/-- Store-level body of one iteration of the time loop of
`run_baseline_spread` (baseline.py:183-193), acting on
(store, current address, max address): `current_grid = propagate_spread(...)`
rebinds the name to the returned fresh array, and
`max_grid = np.maximum(max_grid, current_grid)` allocates a fresh result. -/
def baselineLoopStep (aPot : ℕ) (H W : ℕ) (threshold : ℚ) (neighbors : ℕ)
    (s : Store × ℕ × ℕ) : Store × ℕ × ℕ :=
  let r := propagate_spread_st s.1 s.2.1 aPot H W threshold neighbors
  let m := salloc r.1 fun i j => max (r.1.heap s.2.2 i j) (r.1.heap r.2 i j)
  (m.1, r.2, m.2)

/-- Store-level `run_baseline_spread` (baseline.py:143-203) with the four
input weather/terrain arrays living at the given addresses: allocate the
seeded grid, its copy `max_grid`, and the potential array (reading the
inputs), then run the time loop; returns the store and the addresses of the
final grid and of `max_grid`. -/
def run_baseline_spread_st (σ : Store) (hotspots : List (ℚ × ℚ))
    (rowcol : ℚ × ℚ → Except Unit (ℤ × ℤ)) (aWu aWv aSl aRh : ℕ)
    (H W : ℕ) (config : Config) (n_timesteps : ℤ) (sq : ℚ → ℚ) :
    Store × ℕ × ℕ :=
  let s1 := salloc σ (initialize_grid hotspots rowcol H W config.seed_strength)
  let s2 := salloc s1.1 (s1.1.heap s1.2)
  let s3 := salloc s2.1 (compute_spread_potential sq (s2.1.heap aWu)
    (s2.1.heap aWv) (s2.1.heap aSl) (s2.1.heap aRh) config)
  (baselineLoopStep s3.2 H W config.spread_threshold
    config.neighbors)^[n_timesteps.toNat] (s3.1, s1.2, s2.2)

/-- The transition `current_grid -> propagate_spread(current_grid, ...)` of
the time loop, with the static data fixed, as a function to iterate. -/
def spreadStep (H W : ℕ) (pot : Grid) (threshold : ℚ) (neighbors : ℕ) :
    Grid → Grid :=
  fun g => propagate_spread H W g pot threshold neighbors

/-- The set of active (burned) cells of the array: in-shape indices whose
value is positive. -/
def activeSet (H W : ℕ) (g : Grid) : Finset (ℕ × ℕ) :=
  (Finset.range H ×ˢ Finset.range W).filter fun p => 0 < g p.1 p.2

/-- Potential grid of a 3×3 serpentine scene for claim C4: the two wall
cells (1,0) and (1,1) have potential 0, every other cell potential 1. -/
def mazePot : Grid := fun i j =>
  if (i = 1 ∧ j = 0) ∨ (i = 1 ∧ j = 1) then 0 else 1

/-- Seed grid of the serpentine scene: a single burned cell at (0,0). -/
def mazeSeed : Grid := fun i j => if i = 0 ∧ j = 0 then 1 else 0

/-- Boolean-set counterpart of `neighborMask`, used to track the burned set
symbolically in the concrete-scenario claim C2. -/
def setNeighborMask (H W : ℕ) (B : ℕ → ℕ → Bool) (neighbors : ℕ)
    (i j : ℕ) : Bool :=
  (structOffsets neighbors).any fun d =>
    let i2 : ℤ := (i : ℤ) + d.1
    let j2 : ℤ := (j : ℤ) + d.2
    decide (0 ≤ i2) && decide (i2 < (H : ℤ)) && decide (0 ≤ j2)
      && decide (j2 < (W : ℤ)) && B i2.toNat j2.toNat

/-- Boolean-set counterpart of one `propagate_spread` step when every
in-shape cell's potential exceeds the threshold: the burned set grows by the
dilation, restricted to the array. -/
def nextBurn (H W : ℕ) (B : ℕ → ℕ → Bool) (neighbors : ℕ) (i j : ℕ) : Bool :=
  B i j || (decide (i < H) && decide (j < W) && setNeighborMask H W B neighbors i j)

/-- Burned-set indicator of the seed of the C2 scenario: the center cell
(5,5) of the 10×10 grid. -/
def seedB : ℕ → ℕ → Bool := fun i j => decide (i = 5) && decide (j = 5)

/-- Burned-set indicator after one timestep of the C2 scenario: the 3×3
block centered on (5,5). -/
def ballOneB : ℕ → ℕ → Bool := fun i j =>
  decide (4 ≤ i) && decide (i ≤ 6) && decide (4 ≤ j) && decide (j ≤ 6)

/-- Burned-set indicator after two timesteps of the C2 scenario: the 5×5
block centered on (5,5). -/
def ballTwoB : ℕ → ℕ → Bool := fun i j =>
  decide (3 ≤ i) && decide (i ≤ 7) && decide (3 ≤ j) && decide (j ≤ 7)

/-- Burned-set indicator of the expected final region of the C2 scenario:
the 7×7 block centered on (5,5). -/
def blockB : ℕ → ℕ → Bool := fun i j =>
  decide (2 ≤ i) && decide (i ≤ 8) && decide (2 ≤ j) && decide (j ≤ 8)

/-- Model configuration of the C2 concrete scenario:
`spread_threshold = 0.1`, `neighbors = 8`, all other options at their
defaults. -/
def cfgC2 : Config := { spread_threshold := 1/10, neighbors := 8 }

/-- A constant field, as used by the C2 concrete scenario. -/
def constGrid (v : ℚ) : Grid := fun _ _ => v

/-- Coordinate transform of the C2 concrete scenario: the single detection
lies at the grid's center cell, i.e. it maps to (row, col) = (5, 5). -/
def rowcolC2 : ℚ × ℚ → Except Unit (ℤ × ℤ) := fun _ => Except.ok (5, 5)

/-- A small concrete store (six zero arrays) used to witness the frame
property at a concrete input. -/
def storeW : Store := { heap := fun _ => fun _ _ => 0, next := 6 }

/-!  Basic lemmas about `clip`, `canSpread` and `propagate_spread`. -/

theorem clip_le_hi (x lo hi : ℚ) : clip x lo hi ≤ hi := min_le_right _ _

theorem lo_le_clip (x lo hi : ℚ) (h : lo ≤ hi) : lo ≤ clip x lo hi :=
  le_min (le_max_right _ _) h

theorem clip_eq_self (x lo hi : ℚ) (h1 : lo ≤ x) (h2 : x ≤ hi) :
    clip x lo hi = x := by
  unfold clip
  rw [max_eq_left h1, min_eq_left h2]

theorem lt_clip_zero_one (x c : ℚ) (h1 : c < x) (h2 : c < 1) :
    c < clip x 0 1 := by
  unfold clip
  exact lt_min_iff.mpr ⟨lt_of_lt_of_le h1 (le_max_left _ _), h2⟩

theorem canSpread_iff (H W : ℕ) (g pot : Grid) (th : ℚ) (nb : ℕ) (i j : ℕ) :
    canSpread H W g pot th nb i j = true ↔
      i < H ∧ j < W ∧ th < pot i j ∧ neighborMask H W g nb i j = true
        ∧ ¬(0 < g i j) := by
  simp [canSpread, Bool.and_eq_true, and_assoc]

theorem propagate_spread_of_active (H W : ℕ) (g pot : Grid) (th : ℚ)
    (nb : ℕ) (i j : ℕ) (h : 0 < g i j) :
    propagate_spread H W g pot th nb i j = g i j := by
  unfold propagate_spread
  rw [if_neg]
  intro hc
  exact ((canSpread_iff H W g pot th nb i j).mp hc).2.2.2.2 h

theorem le_propagate_spread (H W : ℕ) (g pot : Grid) (th : ℚ) (nb : ℕ)
    (i j : ℕ) (hpot : 0 ≤ pot i j) :
    g i j ≤ propagate_spread H W g pot th nb i j := by
  unfold propagate_spread
  by_cases hc : canSpread H W g pot th nb i j = true
  · rw [if_pos hc]
    have hg := ((canSpread_iff H W g pot th nb i j).mp hc).2.2.2.2
    exact le_trans (le_of_not_lt hg) hpot
  · rw [if_neg hc]

theorem propagate_spread_outside (H W : ℕ) (g pot : Grid) (th : ℚ) (nb : ℕ)
    (i j : ℕ) (h : ¬(i < H ∧ j < W)) :
    propagate_spread H W g pot th nb i j = g i j := by
  unfold propagate_spread
  rw [if_neg]
  intro hc
  have := (canSpread_iff H W g pot th nb i j).mp hc
  exact h ⟨this.1, this.2.1⟩

theorem compute_spread_potential_nonneg (sq : ℚ → ℚ) (wu wv sl rh : Grid)
    (cfg : Config) (i j : ℕ) :
    0 ≤ compute_spread_potential sq wu wv sl rh cfg i j :=
  lo_le_clip _ _ _ (by norm_num)

theorem compute_spread_potential_le_one (sq : ℚ → ℚ) (wu wv sl rh : Grid)
    (cfg : Config) (i j : ℕ) :
    compute_spread_potential sq wu wv sl rh cfg i j ≤ 1 :=
  clip_le_hi _ _ _

theorem stepPair_iterate_fst (F : Grid → Grid) (n : ℕ) (s : Grid × Grid) :
    ((stepPair F)^[n] s).1 = F^[n] s.1 := by
  induction n generalizing s with
  | zero => rfl
  | succ n ih =>
      rw [Function.iterate_succ_apply, Function.iterate_succ_apply, ih]
      rfl

theorem stepPair_iterate_snd (F : Grid → Grid)
    (hF : ∀ g : Grid, ∀ i j : ℕ, g i j ≤ F g i j) (n : ℕ) (s : Grid × Grid)
    (hs : s.2 = s.1) : ((stepPair F)^[n] s).2 = ((stepPair F)^[n] s).1 := by
  induction n generalizing s with
  | zero => exact hs
  | succ n ih =>
      rw [Function.iterate_succ_apply]
      apply ih
      show (fun i j => max (s.2 i j) (F s.1 i j)) = F s.1
      funext i j
      rw [hs]
      exact max_eq_right (hF s.1 i j)

/-- C3: for every fire-state grid (valued `≥ 0`, as fire states are), every
potential grid, threshold and neighbors setting, a cell that is non-zero in
the input of `propagate_spread` keeps exactly its value in the output, and a
burned cell (`> 0`) stays burned, so the burned set at `t+1` is a superset of
the burned set at `t`. -/
theorem claim_C3_monotonic_propagation (H W : ℕ) (g pot : Grid) (th : ℚ)
    (nb : ℕ) (hg : ∀ i j : ℕ, 0 ≤ g i j) (i j : ℕ) :
    (g i j ≠ 0 → propagate_spread H W g pot th nb i j = g i j) ∧
    (0 < g i j → 0 < propagate_spread H W g pot th nb i j) := by
  have hpos : g i j ≠ 0 → 0 < g i j :=
    fun h => lt_of_le_of_ne (hg i j) (Ne.symm h)
  refine ⟨fun h => propagate_spread_of_active H W g pot th nb i j (hpos h),
    fun h => ?_⟩
  rw [propagate_spread_of_active H W g pot th nb i j h]
  exact h

/-- Witness for C3 at a concrete input: a 1×1 grid with the single cell
burned at value 1 is left unchanged by `propagate_spread`. -/
theorem claim_C3_witness :
    ((1 : ℚ) ≠ 0 →
      propagate_spread 1 1 (fun _ _ => 1) (fun _ _ => 0) 0 8 0 0 = 1) ∧
    ((0 : ℚ) < 1 →
      0 < propagate_spread 1 1 (fun _ _ => 1) (fun _ _ => 0) 0 8 0 0) :=
  claim_C3_monotonic_propagation 1 1 (fun _ _ => 1) (fun _ _ => 0) 0 8
    (fun _ _ => zero_le_one) 0 0

/-- C7: for every input and configuration, the two grids returned by
`run_baseline_spread` — the final fire state and the running elementwise
maximum over all timesteps — are elementwise equal. -/
theorem claim_C7_max_grid_equals_final (hotspots : List (ℚ × ℚ))
    (rowcol : ℚ × ℚ → Except Unit (ℤ × ℤ)) (wu wv sl rh : Grid) (H W : ℕ)
    (cfg : Config) (n_timesteps : ℤ) (sq : ℚ → ℚ) (i j : ℕ) :
    (run_baseline_spread hotspots rowcol wu wv sl rh H W cfg n_timesteps sq).1 i j
      = (run_baseline_spread hotspots rowcol wu wv sl rh H W cfg n_timesteps sq).2 i j := by
  unfold run_baseline_spread
  rw [stepPair_iterate_snd
    (fun g => propagate_spread H W g
      (compute_spread_potential sq wu wv sl rh cfg) cfg.spread_threshold
      cfg.neighbors)
    (fun g a b => le_propagate_spread H W g _ _ _ a b
      (compute_spread_potential_nonneg sq wu wv sl rh cfg a b))
    n_timesteps.toNat _ rfl]

/-- C1: determinism of the ensemble.  The pseudo-random source is a pure
stream determined by the seed (`np.random.seed(seed)` then sequential draws,
no external entropy), modelled by the explicit stream parameter `rng`; two
invocations of `run_monte_carlo_ensemble` on the same inputs, configuration,
`base_seed` and `n_ensemble`, with extensionally equal random streams and
square-root primitives, return identical probability, mean-intensity and
uncertainty grids. -/
theorem claim_C1_ensemble_determinism (hotspots : List (ℚ × ℚ))
    (rowcol : ℚ × ℚ → Except Unit (ℤ × ℤ)) (wu wv temp sl rh : Grid)
    (H W : ℕ) (mcfg ccfg : Config) (n_ensemble base_seed : ℕ)
    (n_timesteps : ℤ) (rng1 rng2 : ℕ → ℕ → ℚ) (sq1 sq2 : ℚ → ℚ)
    (hrng : ∀ s k : ℕ, rng1 s k = rng2 s k) (hsq : ∀ q : ℚ, sq1 q = sq2 q)
    (i j : ℕ) :
    (run_monte_carlo_ensemble hotspots rowcol wu wv temp sl rh H W mcfg ccfg
        n_ensemble base_seed n_timesteps rng1 sq1).1 i j
      = (run_monte_carlo_ensemble hotspots rowcol wu wv temp sl rh H W mcfg ccfg
        n_ensemble base_seed n_timesteps rng2 sq2).1 i j ∧
    (run_monte_carlo_ensemble hotspots rowcol wu wv temp sl rh H W mcfg ccfg
        n_ensemble base_seed n_timesteps rng1 sq1).2.1 i j
      = (run_monte_carlo_ensemble hotspots rowcol wu wv temp sl rh H W mcfg ccfg
        n_ensemble base_seed n_timesteps rng2 sq2).2.1 i j ∧
    (run_monte_carlo_ensemble hotspots rowcol wu wv temp sl rh H W mcfg ccfg
        n_ensemble base_seed n_timesteps rng1 sq1).2.2 i j
      = (run_monte_carlo_ensemble hotspots rowcol wu wv temp sl rh H W mcfg ccfg
        n_ensemble base_seed n_timesteps rng2 sq2).2.2 i j := by
  have h1 : rng1 = rng2 := funext fun s => funext fun k => hrng s k
  have h2 : sq1 = sq2 := funext hsq
  subst h1
  subst h2
  exact ⟨rfl, rfl, rfl⟩

/-- Witness for C1 at a concrete input: a 1×1 all-zero scene, one member,
the zero random stream and `ratSqrt` on both invocations. -/
theorem claim_C1_witness :
    (run_monte_carlo_ensemble [] (fun _ => Except.error ()) (fun _ _ => 0)
        (fun _ _ => 0) (fun _ _ => 0) (fun _ _ => 0) (fun _ _ => 0) 1 1 {} {}
        1 0 0 (fun _ _ => 0) ratSqrt).1 0 0
      = (run_monte_carlo_ensemble [] (fun _ => Except.error ()) (fun _ _ => 0)
        (fun _ _ => 0) (fun _ _ => 0) (fun _ _ => 0) (fun _ _ => 0) 1 1 {} {}
        1 0 0 (fun _ _ => 0) ratSqrt).1 0 0 ∧
    (run_monte_carlo_ensemble [] (fun _ => Except.error ()) (fun _ _ => 0)
        (fun _ _ => 0) (fun _ _ => 0) (fun _ _ => 0) (fun _ _ => 0) 1 1 {} {}
        1 0 0 (fun _ _ => 0) ratSqrt).2.1 0 0
      = (run_monte_carlo_ensemble [] (fun _ => Except.error ()) (fun _ _ => 0)
        (fun _ _ => 0) (fun _ _ => 0) (fun _ _ => 0) (fun _ _ => 0) 1 1 {} {}
        1 0 0 (fun _ _ => 0) ratSqrt).2.1 0 0 ∧
    (run_monte_carlo_ensemble [] (fun _ => Except.error ()) (fun _ _ => 0)
        (fun _ _ => 0) (fun _ _ => 0) (fun _ _ => 0) (fun _ _ => 0) 1 1 {} {}
        1 0 0 (fun _ _ => 0) ratSqrt).2.2 0 0
      = (run_monte_carlo_ensemble [] (fun _ => Except.error ()) (fun _ _ => 0)
        (fun _ _ => 0) (fun _ _ => 0) (fun _ _ => 0) (fun _ _ => 0) 1 1 {} {}
        1 0 0 (fun _ _ => 0) ratSqrt).2.2 0 0 :=
  claim_C1_ensemble_determinism [] (fun _ => Except.error ()) (fun _ _ => 0)
    (fun _ _ => 0) (fun _ _ => 0) (fun _ _ => 0) (fun _ _ => 0) 1 1 {} {}
    1 0 0 (fun _ _ => 0) (fun _ _ => 0) ratSqrt ratSqrt
    (fun _ _ => rfl) (fun _ => rfl) 0 0

/-- C9: a detection whose coordinates map to a cell outside
`[0,H) × [0,W)`, or whose coordinate transformation fails, leaves every cell
of the grid built by `initialize_grid` exactly as if the detection were
absent — it is skipped, the remaining detections are still processed, and
(the embedding being total, mirroring the `try/except: continue` of
baseline.py:40-50) nothing is raised. -/
theorem claim_C9_out_of_range_detection_skipped (pre post : List (ℚ × ℚ))
    (d : ℚ × ℚ) (rowcol : ℚ × ℚ → Except Unit (ℤ × ℤ)) (H W : ℕ) (ss : ℚ)
    (hd : rowcol d = Except.error () ∨ ∃ r c : ℤ,
      rowcol d = Except.ok (r, c)
        ∧ ¬(0 ≤ r ∧ r < (H : ℤ) ∧ 0 ≤ c ∧ c < (W : ℤ)))
    (i j : ℕ) :
    initialize_grid (pre ++ d :: post) rowcol H W ss i j
      = initialize_grid (pre ++ post) rowcol H W ss i j := by
  unfold initialize_grid
  rw [List.foldl_append, List.foldl_append, List.foldl_cons]
  have hskip : placeHotspot rowcol H W ss
      (List.foldl (placeHotspot rowcol H W ss) (fun _ _ => 0) pre) d
      = List.foldl (placeHotspot rowcol H W ss) (fun _ _ => 0) pre := by
    unfold placeHotspot
    rcases hd with hend | ⟨r, c, hok, hout⟩
    · rw [hend]
    · rw [hok]
      exact if_neg hout
  rw [hskip]

/-- Witness for C9 at a concrete input: a detection mapped to row 5 of a
1×1 grid changes nothing. -/
theorem claim_C9_witness :
    initialize_grid ([] ++ (0, 0) :: []) (fun _ => Except.ok (5, 0)) 1 1 1 0 0
      = initialize_grid ([] ++ []) (fun _ => Except.ok (5, 0)) 1 1 1 0 0 :=
  claim_C9_out_of_range_detection_skipped [] [] (0, 0)
    (fun _ => Except.ok (5, 0)) 1 1 1
    (Or.inr ⟨5, 0, rfl, by decide⟩) 0 0

theorem ratSqrt_zero : ratSqrt 0 = 0 := by
  norm_num [ratSqrt]

theorem ratSqrt_nonneg (q : ℚ) : 0 ≤ ratSqrt q :=
  div_nonneg (Nat.cast_nonneg _) (Nat.cast_nonneg _)

/-- Counterexample to C8 as stated: with `wind_norm_max = 10` configured and
a 15 m/s wind, the potential computed by the source (which divides the wind
speed by the fixed constant 20, baseline.py:83) differs from the value the
claim's formula `clip(wind_speed / wind_norm_max, 0, 1)` yields. -/
theorem claim_C8_counterexample :
    compute_spread_potential ratSqrt (fun _ _ => 15) (fun _ _ => 0)
        (fun _ _ => 0) (fun _ _ => 100) { wind_norm_max := 10 } 0 0
      ≠ compute_spread_potential_spec ratSqrt (fun _ _ => 15) (fun _ _ => 0)
        (fun _ _ => 0) (fun _ _ => 100) { wind_norm_max := 10 } 0 0 := by
  have h2 : ratSqrt 225 = 15 := by
    have ha : (225 : ℚ).num.toNat * (225 : ℚ).den = 225 := rfl
    have hb : Nat.sqrt 225 = 15 := by norm_num
    rw [ratSqrt, ha, hb]
    norm_num
  norm_num [compute_spread_potential, compute_spread_potential_spec, clip,
    h2, min_def, max_def]

/-- C8 amended: the wind factor entering the spread potential is
`clip(wind_speed / 20, 0, 1)` with the normalization constant fixed at 20 in
the code; the configured `wind_norm_max` is never read, so the potential is
independent of that option, and the claim's formula holds exactly when
`wind_norm_max = 20`. -/
theorem claim_C8_wind_norm_fixed (cfg : Config) (c : ℚ) (sq : ℚ → ℚ)
    (wu wv sl rh : Grid) (i j : ℕ) :
    compute_spread_potential sq wu wv sl rh { cfg with wind_norm_max := c } i j
      = compute_spread_potential sq wu wv sl rh cfg i j ∧
    compute_spread_potential sq wu wv sl rh cfg i j
      = compute_spread_potential_spec sq wu wv sl rh
          { cfg with wind_norm_max := 20 } i j :=
  ⟨rfl, rfl⟩

/-- C6 is a code bug: `run_monte_carlo_ensemble` performs no validation of
`n_ensemble` or `n_timesteps`.  With `n_ensemble = 0` the member list is
empty and the reductions of monte_carlo.py:122-128 are taken over an empty
axis — numpy emits a warning and produces result grids (NaN-valued; in this
rational embedding the empty sums divided by zero give 0) — and with a
negative `n_timesteps` the loop body never runs and the seed grid is
returned; in both cases result grids are returned to the caller and no error
is raised, contradicting the claim. -/
theorem claim_C6_no_validation :
    ((run_monte_carlo_ensemble [(0, 0)] (fun _ => Except.ok (0, 0))
        (fun _ _ => 0) (fun _ _ => 0) (fun _ _ => 0) (fun _ _ => 0)
        (fun _ _ => 0) 1 1 {} {} 0 42 24 (fun _ _ => 0) ratSqrt).1 0 0 = 0
      ∧ (run_monte_carlo_ensemble [(0, 0)] (fun _ => Except.ok (0, 0))
        (fun _ _ => 0) (fun _ _ => 0) (fun _ _ => 0) (fun _ _ => 0)
        (fun _ _ => 0) 1 1 {} {} 0 42 24 (fun _ _ => 0) ratSqrt).2.1 0 0 = 0
      ∧ (run_monte_carlo_ensemble [(0, 0)] (fun _ => Except.ok (0, 0))
        (fun _ _ => 0) (fun _ _ => 0) (fun _ _ => 0) (fun _ _ => 0)
        (fun _ _ => 0) 1 1 {} {} 0 42 24 (fun _ _ => 0) ratSqrt).2.2 0 0 = 0)
    ∧ (run_monte_carlo_ensemble [(0, 0)] (fun _ => Except.ok (0, 0))
        (fun _ _ => 0) (fun _ _ => 0) (fun _ _ => 0) (fun _ _ => 0)
        (fun _ _ => 0) 1 1 {} {} 1 0 (-5) (fun _ _ => 0) ratSqrt).1 0 0 = 1 := by
  have hr1 : List.range 1 = [0] := rfl
  have hn5 : ((-5 : ℤ)).toNat = 0 := rfl
  refine ⟨⟨?_, ?_, ?_⟩, ?_⟩ <;>
    norm_num [run_monte_carlo_ensemble, mcMember, run_baseline_spread,
      initialize_grid, placeHotspot, setCell, perturb_weather, ratSqrt,
      hr1, hn5, Function.iterate_zero_apply, List.countP_cons, List.countP_nil,
      List.foldl_cons, List.foldl_nil]

/-- Counterexample to C5 as stated: with `seed_strength = 2` configured, a
single detection, one member and zero timesteps, the `mean_intensity` output
of `run_monte_carlo_ensemble` is 2 at the seed cell, outside `[0, 1]`. -/
theorem claim_C5_counterexample :
    1 < (run_monte_carlo_ensemble [(0, 0)] (fun _ => Except.ok (0, 0))
        (fun _ _ => 0) (fun _ _ => 0) (fun _ _ => 0) (fun _ _ => 0)
        (fun _ _ => 0) 1 1 { seed_strength := 2 } {} 1 0 0
        (fun _ _ => 0) ratSqrt).2.1 0 0 := by
  have hr1 : List.range 1 = [0] := rfl
  norm_num [run_monte_carlo_ensemble, mcMember, run_baseline_spread,
    initialize_grid, placeHotspot, setCell, perturb_weather, hr1,
    Function.iterate_zero_apply, List.foldl_cons, List.foldl_nil]

theorem placeHotspot_bounds (rowcol : ℚ × ℚ → Except Unit (ℤ × ℤ))
    (H W : ℕ) (ss : ℚ) (hss : 0 ≤ ss ∧ ss ≤ 1) (g : Grid)
    (hg : ∀ i j : ℕ, 0 ≤ g i j ∧ g i j ≤ 1) (d : ℚ × ℚ) (i j : ℕ) :
    0 ≤ placeHotspot rowcol H W ss g d i j
      ∧ placeHotspot rowcol H W ss g d i j ≤ 1 := by
  unfold placeHotspot
  cases hrc : rowcol d with
  | error e => exact hg i j
  | ok rc =>
      obtain ⟨r, c⟩ := rc
      show 0 ≤ (if 0 ≤ r ∧ r < (H : ℤ) ∧ 0 ≤ c ∧ c < (W : ℤ) then
          setCell g r.toNat c.toNat ss else g) i j
        ∧ (if 0 ≤ r ∧ r < (H : ℤ) ∧ 0 ≤ c ∧ c < (W : ℤ) then
          setCell g r.toNat c.toNat ss else g) i j ≤ 1
      split
      · unfold setCell
        split
        · exact hss
        · exact hg i j
      · exact hg i j

theorem foldl_placeHotspot_bounds (rowcol : ℚ × ℚ → Except Unit (ℤ × ℤ))
    (H W : ℕ) (ss : ℚ) (hss : 0 ≤ ss ∧ ss ≤ 1) (l : List (ℚ × ℚ)) (g : Grid)
    (hg : ∀ i j : ℕ, 0 ≤ g i j ∧ g i j ≤ 1) (i j : ℕ) :
    0 ≤ (l.foldl (placeHotspot rowcol H W ss) g) i j
      ∧ (l.foldl (placeHotspot rowcol H W ss) g) i j ≤ 1 := by
  induction l generalizing g with
  | nil => exact hg i j
  | cons d t ih =>
      rw [List.foldl_cons]
      exact ih (placeHotspot rowcol H W ss g d)
        (placeHotspot_bounds rowcol H W ss hss g hg d)

theorem initialize_grid_bounds (hotspots : List (ℚ × ℚ))
    (rowcol : ℚ × ℚ → Except Unit (ℤ × ℤ)) (H W : ℕ) (ss : ℚ)
    (hss : 0 ≤ ss ∧ ss ≤ 1) (i j : ℕ) :
    0 ≤ initialize_grid hotspots rowcol H W ss i j
      ∧ initialize_grid hotspots rowcol H W ss i j ≤ 1 :=
  foldl_placeHotspot_bounds rowcol H W ss hss hotspots (fun _ _ => 0)
    (fun _ _ => by norm_num) i j

theorem propagate_spread_bounds (H W : ℕ) (g pot : Grid) (th : ℚ) (nb : ℕ)
    (hg : ∀ i j : ℕ, 0 ≤ g i j ∧ g i j ≤ 1)
    (hpot : ∀ i j : ℕ, 0 ≤ pot i j ∧ pot i j ≤ 1) (i j : ℕ) :
    0 ≤ propagate_spread H W g pot th nb i j
      ∧ propagate_spread H W g pot th nb i j ≤ 1 := by
  unfold propagate_spread
  split
  · exact hpot i j
  · exact hg i j

theorem stepPair_iterate_bounds (F : Grid → Grid)
    (hF : ∀ g : Grid, (∀ i j : ℕ, 0 ≤ g i j ∧ g i j ≤ 1) →
      ∀ i j : ℕ, 0 ≤ F g i j ∧ F g i j ≤ 1)
    (n : ℕ) (s : Grid × Grid)
    (h1 : ∀ i j : ℕ, 0 ≤ s.1 i j ∧ s.1 i j ≤ 1)
    (h2 : ∀ i j : ℕ, 0 ≤ s.2 i j ∧ s.2 i j ≤ 1) (i j : ℕ) :
    (0 ≤ ((stepPair F)^[n] s).1 i j ∧ ((stepPair F)^[n] s).1 i j ≤ 1)
      ∧ (0 ≤ ((stepPair F)^[n] s).2 i j ∧ ((stepPair F)^[n] s).2 i j ≤ 1) := by
  induction n generalizing s with
  | zero => exact ⟨h1 i j, h2 i j⟩
  | succ n ih =>
      rw [Function.iterate_succ_apply]
      refine ih (stepPair F s) (hF s.1 h1) (fun a b => ?_)
      show 0 ≤ max (s.2 a b) (F s.1 a b) ∧ max (s.2 a b) (F s.1 a b) ≤ 1
      exact ⟨le_trans (h2 a b).1 (le_max_left _ _),
        max_le (h2 a b).2 (hF s.1 h1 a b).2⟩

theorem run_baseline_spread_bounds (hotspots : List (ℚ × ℚ))
    (rowcol : ℚ × ℚ → Except Unit (ℤ × ℤ)) (wu wv sl rh : Grid) (H W : ℕ)
    (cfg : Config) (n_timesteps : ℤ) (sq : ℚ → ℚ)
    (hss : 0 ≤ cfg.seed_strength ∧ cfg.seed_strength ≤ 1) (i j : ℕ) :
    (0 ≤ (run_baseline_spread hotspots rowcol wu wv sl rh H W cfg n_timesteps sq).1 i j
      ∧ (run_baseline_spread hotspots rowcol wu wv sl rh H W cfg n_timesteps sq).1 i j ≤ 1)
    ∧ (0 ≤ (run_baseline_spread hotspots rowcol wu wv sl rh H W cfg n_timesteps sq).2 i j
      ∧ (run_baseline_spread hotspots rowcol wu wv sl rh H W cfg n_timesteps sq).2 i j ≤ 1) := by
  unfold run_baseline_spread
  exact stepPair_iterate_bounds _
    (fun g hg a b => propagate_spread_bounds H W g _ _ _ hg
      (fun a2 b2 => ⟨compute_spread_potential_nonneg sq wu wv sl rh cfg a2 b2,
        compute_spread_potential_le_one sq wu wv sl rh cfg a2 b2⟩) a b)
    n_timesteps.toNat _
    (initialize_grid_bounds hotspots rowcol H W cfg.seed_strength hss)
    (initialize_grid_bounds hotspots rowcol H W cfg.seed_strength hss) i j

theorem list_sum_bounds (l : List ℚ) (h : ∀ x ∈ l, 0 ≤ x ∧ x ≤ 1) :
    0 ≤ l.sum ∧ l.sum ≤ (l.length : ℚ) := by
  induction l with
  | nil => norm_num
  | cons x t ih =>
      have hx := h x (List.mem_cons_self x t)
      have ht := ih fun y hy => h y (List.mem_cons_of_mem x hy)
      rw [List.sum_cons, List.length_cons]
      push_cast
      constructor
      · linarith [hx.1, ht.1]
      · linarith [hx.2, ht.2]

/-- C5 amended: for every input and configuration with `n_ensemble ≥ 1` and
`seed_strength ∈ [0, 1]` (and a square root that is nonnegative on
nonnegative arguments, as `np.sqrt` is), `run_monte_carlo_ensemble` returns
`probability` and `mean_intensity` with every cell in `[0, 1]` and
`uncertainty` with every cell `≥ 0`.  As stated the claim is false: a
configured `seed_strength` above 1 puts `mean_intensity` above 1 (see the
counterexample), because seed cells keep the raw `seed_strength` value. -/
theorem claim_C5_bounded_outputs (hotspots : List (ℚ × ℚ))
    (rowcol : ℚ × ℚ → Except Unit (ℤ × ℤ)) (wu wv temp sl rh : Grid)
    (H W : ℕ) (mcfg ccfg : Config) (n_ensemble base_seed : ℕ)
    (n_timesteps : ℤ) (rng : ℕ → ℕ → ℚ) (sq : ℚ → ℚ)
    (hn : 1 ≤ n_ensemble)
    (hss : 0 ≤ mcfg.seed_strength ∧ mcfg.seed_strength ≤ 1)
    (hsq : ∀ q : ℚ, 0 ≤ q → 0 ≤ sq q) (i j : ℕ) :
    (0 ≤ (run_monte_carlo_ensemble hotspots rowcol wu wv temp sl rh H W mcfg
        ccfg n_ensemble base_seed n_timesteps rng sq).1 i j
      ∧ (run_monte_carlo_ensemble hotspots rowcol wu wv temp sl rh H W mcfg
        ccfg n_ensemble base_seed n_timesteps rng sq).1 i j ≤ 1)
    ∧ (0 ≤ (run_monte_carlo_ensemble hotspots rowcol wu wv temp sl rh H W mcfg
        ccfg n_ensemble base_seed n_timesteps rng sq).2.1 i j
      ∧ (run_monte_carlo_ensemble hotspots rowcol wu wv temp sl rh H W mcfg
        ccfg n_ensemble base_seed n_timesteps rng sq).2.1 i j ≤ 1)
    ∧ 0 ≤ (run_monte_carlo_ensemble hotspots rowcol wu wv temp sl rh H W mcfg
        ccfg n_ensemble base_seed n_timesteps rng sq).2.2 i j := by
  have hnq : (0 : ℚ) < (n_ensemble : ℚ) := by
    exact_mod_cast Nat.lt_of_lt_of_le Nat.zero_lt_one hn
  have hmem : ∀ m ∈ (List.range n_ensemble).map
      (mcMember hotspots rowcol wu wv temp sl rh H W mcfg ccfg base_seed
        n_timesteps rng sq), ∀ a b : ℕ, 0 ≤ m a b ∧ m a b ≤ 1 := by
    intro m hm a b
    obtain ⟨k, _, rfl⟩ := List.mem_map.mp hm
    exact (run_baseline_spread_bounds hotspots rowcol _ _ sl _ H W mcfg
      n_timesteps sq hss a b).2
  have hlen : ((List.range n_ensemble).map
      (mcMember hotspots rowcol wu wv temp sl rh H W mcfg ccfg base_seed
        n_timesteps rng sq)).length = n_ensemble := by
    rw [List.length_map, List.length_range]
  refine ⟨⟨?_, ?_⟩, ⟨?_, ?_⟩, ?_⟩
  · exact div_nonneg (Nat.cast_nonneg _) (le_of_lt hnq)
  · show ((List.countP _ _ : ℕ) : ℚ) / (n_ensemble : ℚ) ≤ 1
    rw [div_le_one hnq]
    calc ((List.countP _ _ : ℕ) : ℚ) ≤ (((List.range n_ensemble).map
          (mcMember hotspots rowcol wu wv temp sl rh H W mcfg ccfg base_seed
            n_timesteps rng sq)).length : ℚ) := by
          exact_mod_cast List.countP_le_length _
      _ = (n_ensemble : ℚ) := by rw [hlen]
  · refine div_nonneg ?_ (le_of_lt hnq)
    refine (list_sum_bounds _ ?_).1
    intro x hx
    obtain ⟨m, hm, rfl⟩ := List.mem_map.mp hx
    exact hmem m hm i j
  · show (List.map _ _).sum / (n_ensemble : ℚ) ≤ 1
    rw [div_le_one hnq]
    calc (List.map _ _).sum ≤ ((List.map (fun m : Grid => m i j)
          ((List.range n_ensemble).map
            (mcMember hotspots rowcol wu wv temp sl rh H W mcfg ccfg base_seed
              n_timesteps rng sq))).length : ℚ) := by
          refine (list_sum_bounds _ ?_).2
          intro x hx
          obtain ⟨m, hm, rfl⟩ := List.mem_map.mp hx
          exact hmem m hm i j
      _ ≤ (n_ensemble : ℚ) := by rw [List.length_map, hlen]
  · refine hsq _ (div_nonneg ?_ (le_of_lt hnq))
    refine List.sum_nonneg ?_
    intro x hx
    obtain ⟨m, _, rfl⟩ := List.mem_map.mp hx
    positivity

/-- Witness for the amended C5 at a concrete input: a 1×1 scene, one
detection, one member, default configuration, the zero random stream and
`ratSqrt`. -/
theorem claim_C5_witness :
    (0 ≤ (run_monte_carlo_ensemble [(0, 0)] (fun _ => Except.ok (0, 0))
        (fun _ _ => 0) (fun _ _ => 0) (fun _ _ => 0) (fun _ _ => 0)
        (fun _ _ => 0) 1 1 {} {} 1 0 0 (fun _ _ => 0) ratSqrt).1 0 0
      ∧ (run_monte_carlo_ensemble [(0, 0)] (fun _ => Except.ok (0, 0))
        (fun _ _ => 0) (fun _ _ => 0) (fun _ _ => 0) (fun _ _ => 0)
        (fun _ _ => 0) 1 1 {} {} 1 0 0 (fun _ _ => 0) ratSqrt).1 0 0 ≤ 1)
    ∧ (0 ≤ (run_monte_carlo_ensemble [(0, 0)] (fun _ => Except.ok (0, 0))
        (fun _ _ => 0) (fun _ _ => 0) (fun _ _ => 0) (fun _ _ => 0)
        (fun _ _ => 0) 1 1 {} {} 1 0 0 (fun _ _ => 0) ratSqrt).2.1 0 0
      ∧ (run_monte_carlo_ensemble [(0, 0)] (fun _ => Except.ok (0, 0))
        (fun _ _ => 0) (fun _ _ => 0) (fun _ _ => 0) (fun _ _ => 0)
        (fun _ _ => 0) 1 1 {} {} 1 0 0 (fun _ _ => 0) ratSqrt).2.1 0 0 ≤ 1)
    ∧ 0 ≤ (run_monte_carlo_ensemble [(0, 0)] (fun _ => Except.ok (0, 0))
        (fun _ _ => 0) (fun _ _ => 0) (fun _ _ => 0) (fun _ _ => 0)
        (fun _ _ => 0) 1 1 {} {} 1 0 0 (fun _ _ => 0) ratSqrt).2.2 0 0 :=
  claim_C5_bounded_outputs [(0, 0)] (fun _ => Except.ok (0, 0))
    (fun _ _ => 0) (fun _ _ => 0) (fun _ _ => 0) (fun _ _ => 0)
    (fun _ _ => 0) 1 1 {} {} 1 0 0 (fun _ _ => 0) ratSqrt
    (le_refl 1) ⟨zero_le_one, le_refl 1⟩ (fun q _ => ratSqrt_nonneg q) 0 0

theorem activeSet_iff (H W : ℕ) (g : Grid) (p : ℕ × ℕ) :
    p ∈ activeSet H W g ↔ p.1 < H ∧ p.2 < W ∧ 0 < g p.1 p.2 := by
  unfold activeSet
  simp [Finset.mem_filter, Finset.mem_product, Finset.mem_range, and_assoc]

theorem propagate_spread_pos (H W : ℕ) (g pot : Grid) (th : ℚ) (nb i j : ℕ)
    (hc : canSpread H W g pot th nb i j = true) :
    propagate_spread H W g pot th nb i j = pot i j := by
  unfold propagate_spread
  rw [if_pos hc]

theorem propagate_spread_neg (H W : ℕ) (g pot : Grid) (th : ℚ) (nb i j : ℕ)
    (hc : canSpread H W g pot th nb i j = false) :
    propagate_spread H W g pot th nb i j = g i j := by
  unfold propagate_spread
  rw [if_neg]
  rw [hc]
  exact Bool.false_ne_true

theorem activeSet_congr_cell (H W : ℕ) (g1 g2 : Grid)
    (hA : activeSet H W g1 = activeSet H W g2) (a b : ℕ)
    (ha : a < H) (hb : b < W) : 0 < g1 a b ↔ 0 < g2 a b := by
  constructor
  · intro h
    have hm : (a, b) ∈ activeSet H W g1 :=
      (activeSet_iff H W g1 (a, b)).mpr ⟨ha, hb, h⟩
    rw [hA] at hm
    exact ((activeSet_iff H W g2 (a, b)).mp hm).2.2
  · intro h
    have hm : (a, b) ∈ activeSet H W g2 :=
      (activeSet_iff H W g2 (a, b)).mpr ⟨ha, hb, h⟩
    rw [← hA] at hm
    exact ((activeSet_iff H W g1 (a, b)).mp hm).2.2

theorem neighborMask_mono_true (H W : ℕ) (g1 g2 : Grid) (nb i j : ℕ)
    (h : ∀ a b : ℕ, a < H → b < W → 0 < g1 a b → 0 < g2 a b)
    (hm : neighborMask H W g1 nb i j = true) :
    neighborMask H W g2 nb i j = true := by
  unfold neighborMask at hm ⊢
  rw [List.any_eq_true] at hm ⊢
  obtain ⟨d, hd, hpred⟩ := hm
  refine ⟨d, hd, ?_⟩
  simp only [Bool.and_eq_true, decide_eq_true_eq] at hpred ⊢
  obtain ⟨⟨⟨⟨h1, h2⟩, h3⟩, h4⟩, h5⟩ := hpred
  exact ⟨⟨⟨⟨h1, h2⟩, h3⟩, h4⟩,
    h (((i : ℤ) + d.1).toNat) (((j : ℤ) + d.2).toNat) (by omega) (by omega) h5⟩

theorem neighborMask_congr (H W : ℕ) (g1 g2 : Grid) (nb : ℕ)
    (hA : activeSet H W g1 = activeSet H W g2) (i j : ℕ) :
    neighborMask H W g1 nb i j = neighborMask H W g2 nb i j := by
  rw [Bool.eq_iff_iff]
  constructor
  · exact neighborMask_mono_true H W g1 g2 nb i j
      (fun a b ha hb => (activeSet_congr_cell H W g1 g2 hA a b ha hb).mp)
  · exact neighborMask_mono_true H W g2 g1 nb i j
      (fun a b ha hb => (activeSet_congr_cell H W g1 g2 hA a b ha hb).mpr)

theorem canSpread_congr (H W : ℕ) (g1 g2 pot : Grid) (th : ℚ) (nb : ℕ)
    (hA : activeSet H W g1 = activeSet H W g2) (i j : ℕ) :
    canSpread H W g1 pot th nb i j = canSpread H W g2 pot th nb i j := by
  unfold canSpread
  rw [neighborMask_congr H W g1 g2 nb hA i j]
  by_cases hdom : i < H ∧ j < W
  · have hiff := activeSet_congr_cell H W g1 g2 hA i j hdom.1 hdom.2
    simp only [hiff]
  · rcases not_and_or.mp hdom with h | h <;> simp [h]

theorem activeSet_subset_propagate (H W : ℕ) (g pot : Grid) (th : ℚ)
    (nb : ℕ) :
    activeSet H W g ⊆ activeSet H W (propagate_spread H W g pot th nb) := by
  intro p hp
  rw [activeSet_iff] at hp ⊢
  refine ⟨hp.1, hp.2.1, ?_⟩
  rw [propagate_spread_of_active H W g pot th nb p.1 p.2 hp.2.2]
  exact hp.2.2

theorem propagate_stab (H W : ℕ) (g pot : Grid) (th : ℚ) (nb : ℕ)
    (hA : activeSet H W (propagate_spread H W g pot th nb) = activeSet H W g) :
    propagate_spread H W (propagate_spread H W g pot th nb) pot th nb
      = propagate_spread H W g pot th nb := by
  funext i j
  have hcs := canSpread_congr H W (propagate_spread H W g pot th nb) g pot th
    nb hA i j
  cases hc : canSpread H W g pot th nb i j with
  | false =>
      rw [propagate_spread_neg H W _ pot th nb i j (hcs.trans hc)]
  | true =>
      rw [propagate_spread_pos H W _ pot th nb i j (hcs.trans hc),
        propagate_spread_pos H W g pot th nb i j hc]

/-- C4 amended: for every seeded grid, every potential grid, every threshold
and every neighbors setting, iterating `propagate_spread` `H * W` times
reaches a fixed point — applying `propagate_spread` once more returns the
grid unchanged, so running beyond convergence is a no-op.  (The claim's
`max(H, W)` bound is false: through a serpentine corridor of
above-threshold cells the fire needs up to one timestep per reachable cell,
see the counterexample; `H * W` steps always suffice, since the active set
grows strictly until the simulation is at a fixed point.) -/
theorem claim_C4_fixed_point_in_HW_steps (H W : ℕ) (g pot : Grid) (th : ℚ)
    (nb : ℕ) :
    propagate_spread H W ((spreadStep H W pot th nb)^[H * W] g) pot th nb
      = (spreadStep H W pot th nb)^[H * W] g := by
  by_cases hex : ∃ k, k < H * W ∧
      activeSet H W ((spreadStep H W pot th nb)^[k + 1] g)
        = activeSet H W ((spreadStep H W pot th nb)^[k] g)
  · obtain ⟨k, hk, hA⟩ := hex
    have hfix : spreadStep H W pot th nb
        ((spreadStep H W pot th nb)^[k + 1] g)
        = (spreadStep H W pot th nb)^[k + 1] g := by
      rw [Function.iterate_succ_apply'] at hA ⊢
      exact propagate_stab H W ((spreadStep H W pot th nb)^[k] g) pot th nb hA
    have heq : (spreadStep H W pot th nb)^[H * W] g
        = (spreadStep H W pot th nb)^[k + 1] g := by
      have hsplit : H * W = (H * W - (k + 1)) + (k + 1) := by omega
      rw [hsplit, Function.iterate_add_apply]
      exact Function.iterate_fixed hfix _
    rw [heq]
    exact hfix
  · push_neg at hex
    have hgrow : ∀ k, k ≤ H * W →
        k ≤ (activeSet H W ((spreadStep H W pot th nb)^[k] g)).card := by
      intro k
      induction k with
      | zero => exact fun _ => Nat.zero_le _
      | succ k ih =>
          intro hk1
          have hk : k < H * W := Nat.lt_of_succ_le hk1
          have hsub : activeSet H W ((spreadStep H W pot th nb)^[k] g)
              ⊆ activeSet H W ((spreadStep H W pot th nb)^[k + 1] g) := by
            rw [Function.iterate_succ_apply']
            exact activeSet_subset_propagate H W _ pot th nb
          have hne := hex k hk
          have hss : activeSet H W ((spreadStep H W pot th nb)^[k] g)
              ⊂ activeSet H W ((spreadStep H W pot th nb)^[k + 1] g) :=
            Finset.ssubset_iff_subset_ne.mpr ⟨hsub, fun h => hne h.symm⟩
          have hc := Finset.card_lt_card hss
          have hik := ih (le_of_lt hk)
          omega
    have hfull : activeSet H W ((spreadStep H W pot th nb)^[H * W] g)
        = Finset.range H ×ˢ Finset.range W := by
      refine Finset.eq_of_subset_of_card_le (Finset.filter_subset _ _) ?_
      rw [Finset.card_product, Finset.card_range, Finset.card_range]
      exact hgrow (H * W) (le_refl _)
    funext i j
    by_cases hdom : i < H ∧ j < W
    · have hmem : (i, j) ∈ activeSet H W
          ((spreadStep H W pot th nb)^[H * W] g) := by
        rw [hfull]
        exact Finset.mem_product.mpr
          ⟨Finset.mem_range.mpr hdom.1, Finset.mem_range.mpr hdom.2⟩
      exact propagate_spread_of_active H W _ pot th nb i j
        ((activeSet_iff H W _ (i, j)).mp hmem).2.2
    · exact propagate_spread_outside H W _ pot th nb i j hdom

/-- Counterexample to C4 as stated: on a 3×3 grid with a serpentine
potential (walls at (1,0) and (1,1)), 4-neighbor spread, threshold 0 and a
seed at (0,0), the grid after `max(3,3) = 3` iterations of
`propagate_spread` is not a fixed point — one more application still burns
cell (2,2). -/
theorem claim_C4_counterexample :
    propagate_spread 3 3 ((spreadStep 3 3 mazePot 0 4)^[max 3 3] mazeSeed)
        mazePot 0 4 2 2
      ≠ (spreadStep 3 3 mazePot 0 4)^[max 3 3] mazeSeed 2 2 := by
  decide

theorem salloc_heap_preserved (σ : Store) (v : Grid) (a : ℕ)
    (h : a < σ.next) : (salloc σ v).1.heap a = σ.heap a := by
  unfold salloc
  exact if_neg (by omega)

theorem salloc_fst_next (σ : Store) (v : Grid) :
    (salloc σ v).1.next = σ.next + 1 := rfl

theorem propagate_spread_st_heap_preserved (σ : Store) (aCur aPot H W : ℕ)
    (th : ℚ) (nb : ℕ) (a : ℕ) (h : a < σ.next) :
    (propagate_spread_st σ aCur aPot H W th nb).1.heap a = σ.heap a := by
  unfold propagate_spread_st swrite salloc
  show (if a = σ.next then _ else if a = σ.next then _ else σ.heap a) = σ.heap a
  rw [if_neg (by omega), if_neg (by omega)]

theorem propagate_spread_st_fst_next (σ : Store) (aCur aPot H W : ℕ)
    (th : ℚ) (nb : ℕ) :
    (propagate_spread_st σ aCur aPot H W th nb).1.next = σ.next + 1 := rfl

theorem propagate_spread_st_addr (σ : Store) (aCur aPot H W : ℕ) (th : ℚ)
    (nb : ℕ) : (propagate_spread_st σ aCur aPot H W th nb).2 = σ.next := rfl

theorem propagate_spread_st_result (σ : Store) (aCur aPot H W : ℕ) (th : ℚ)
    (nb : ℕ) :
    (propagate_spread_st σ aCur aPot H W th nb).1.heap
        (propagate_spread_st σ aCur aPot H W th nb).2
      = propagate_spread H W (σ.heap aCur) (σ.heap aPot) th nb := by
  funext i j
  unfold propagate_spread_st swrite salloc propagate_spread
  simp

theorem baselineLoopStep_heap_preserved (aPot H W : ℕ) (th : ℚ) (nb : ℕ)
    (s : Store × ℕ × ℕ) (a : ℕ) (h : a < s.1.next) :
    (baselineLoopStep aPot H W th nb s).1.heap a = s.1.heap a := by
  unfold baselineLoopStep
  rw [salloc_heap_preserved _ _ _
    (by rw [propagate_spread_st_fst_next]; omega)]
  exact propagate_spread_st_heap_preserved s.1 s.2.1 aPot H W th nb a h

theorem baselineLoopStep_fst_next (aPot H W : ℕ) (th : ℚ) (nb : ℕ)
    (s : Store × ℕ × ℕ) :
    (baselineLoopStep aPot H W th nb s).1.next = s.1.next + 2 := rfl

theorem baselineLoop_iterate_heap_preserved (aPot H W : ℕ) (th : ℚ)
    (nb : ℕ) (k : ℕ) (s : Store × ℕ × ℕ) (a : ℕ) (h : a < s.1.next) :
    ((baselineLoopStep aPot H W th nb)^[k] s).1.heap a = s.1.heap a := by
  induction k generalizing s with
  | zero => rfl
  | succ k ih =>
      rw [Function.iterate_succ_apply,
        ih (baselineLoopStep aPot H W th nb s)
          (by rw [baselineLoopStep_fst_next]; omega)]
      exact baselineLoopStep_heap_preserved aPot H W th nb s a h

theorem run_baseline_spread_st_heap_preserved (σ : Store)
    (hotspots : List (ℚ × ℚ)) (rowcol : ℚ × ℚ → Except Unit (ℤ × ℤ))
    (aWu aWv aSl aRh H W : ℕ) (cfg : Config) (n_timesteps : ℤ)
    (sq : ℚ → ℚ) (a : ℕ) (h : a < σ.next) :
    (run_baseline_spread_st σ hotspots rowcol aWu aWv aSl aRh H W cfg
        n_timesteps sq).1.heap a = σ.heap a := by
  unfold run_baseline_spread_st
  rw [baselineLoop_iterate_heap_preserved _ _ _ _ _ _ _ _
    (by simp only [salloc_fst_next]; omega)]
  rw [salloc_heap_preserved _ _ _ (by simp only [salloc_fst_next]; omega)]
  rw [salloc_heap_preserved _ _ _ (by simp only [salloc_fst_next]; omega)]
  exact salloc_heap_preserved σ _ a h

/-- C10: frame property, over the store-level embedding.
`propagate_spread` leaves the arrays at the addresses of `current_grid` and
`spread_potential` holding exactly the values they held before the call, and
returns a fresh array (a new address, holding the grid the pure embedding
computes); consequently `run_baseline_spread` leaves the four input
weather/terrain arrays unchanged. -/
theorem claim_C10_frame_no_mutation (σ : Store) (aCur aPot : ℕ)
    (hotspots : List (ℚ × ℚ)) (rowcol : ℚ × ℚ → Except Unit (ℤ × ℤ))
    (aWu aWv aSl aRh H W : ℕ) (th : ℚ) (nb : ℕ) (cfg : Config)
    (n_timesteps : ℤ) (sq : ℚ → ℚ)
    (hCur : aCur < σ.next) (hPot : aPot < σ.next) (hWu : aWu < σ.next)
    (hWv : aWv < σ.next) (hSl : aSl < σ.next) (hRh : aRh < σ.next) :
    ((propagate_spread_st σ aCur aPot H W th nb).1.heap aCur = σ.heap aCur
      ∧ (propagate_spread_st σ aCur aPot H W th nb).1.heap aPot = σ.heap aPot
      ∧ (propagate_spread_st σ aCur aPot H W th nb).2 ≠ aCur
      ∧ (propagate_spread_st σ aCur aPot H W th nb).2 ≠ aPot
      ∧ (propagate_spread_st σ aCur aPot H W th nb).1.heap
          (propagate_spread_st σ aCur aPot H W th nb).2
        = propagate_spread H W (σ.heap aCur) (σ.heap aPot) th nb)
    ∧ ((run_baseline_spread_st σ hotspots rowcol aWu aWv aSl aRh H W cfg
          n_timesteps sq).1.heap aWu = σ.heap aWu
      ∧ (run_baseline_spread_st σ hotspots rowcol aWu aWv aSl aRh H W cfg
          n_timesteps sq).1.heap aWv = σ.heap aWv
      ∧ (run_baseline_spread_st σ hotspots rowcol aWu aWv aSl aRh H W cfg
          n_timesteps sq).1.heap aSl = σ.heap aSl
      ∧ (run_baseline_spread_st σ hotspots rowcol aWu aWv aSl aRh H W cfg
          n_timesteps sq).1.heap aRh = σ.heap aRh) := by
  refine ⟨⟨?_, ?_, ?_, ?_, ?_⟩, ?_, ?_, ?_, ?_⟩
  · exact propagate_spread_st_heap_preserved σ aCur aPot H W th nb aCur hCur
  · exact propagate_spread_st_heap_preserved σ aCur aPot H W th nb aPot hPot
  · rw [propagate_spread_st_addr]; omega
  · rw [propagate_spread_st_addr]; omega
  · exact propagate_spread_st_result σ aCur aPot H W th nb
  · exact run_baseline_spread_st_heap_preserved σ hotspots rowcol aWu aWv aSl
      aRh H W cfg n_timesteps sq aWu hWu
  · exact run_baseline_spread_st_heap_preserved σ hotspots rowcol aWu aWv aSl
      aRh H W cfg n_timesteps sq aWv hWv
  · exact run_baseline_spread_st_heap_preserved σ hotspots rowcol aWu aWv aSl
      aRh H W cfg n_timesteps sq aSl hSl
  · exact run_baseline_spread_st_heap_preserved σ hotspots rowcol aWu aWv aSl
      aRh H W cfg n_timesteps sq aRh hRh

/-- Witness for C10 at a concrete input: a store of six zero arrays, with
`current_grid` at address 0, `spread_potential` at address 1 and the four
weather/terrain inputs at addresses 2..5. -/
theorem claim_C10_witness :
    ((propagate_spread_st storeW 0 1 1 1 0 8).1.heap 0 = storeW.heap 0
      ∧ (propagate_spread_st storeW 0 1 1 1 0 8).1.heap 1 = storeW.heap 1
      ∧ (propagate_spread_st storeW 0 1 1 1 0 8).2 ≠ 0
      ∧ (propagate_spread_st storeW 0 1 1 1 0 8).2 ≠ 1
      ∧ (propagate_spread_st storeW 0 1 1 1 0 8).1.heap
          (propagate_spread_st storeW 0 1 1 1 0 8).2
        = propagate_spread 1 1 (storeW.heap 0) (storeW.heap 1) 0 8)
    ∧ ((run_baseline_spread_st storeW [] (fun _ => Except.error ()) 2 3 4 5
          1 1 {} 0 ratSqrt).1.heap 2 = storeW.heap 2
      ∧ (run_baseline_spread_st storeW [] (fun _ => Except.error ()) 2 3 4 5
          1 1 {} 0 ratSqrt).1.heap 3 = storeW.heap 3
      ∧ (run_baseline_spread_st storeW [] (fun _ => Except.error ()) 2 3 4 5
          1 1 {} 0 ratSqrt).1.heap 4 = storeW.heap 4
      ∧ (run_baseline_spread_st storeW [] (fun _ => Except.error ()) 2 3 4 5
          1 1 {} 0 ratSqrt).1.heap 5 = storeW.heap 5) :=
  claim_C10_frame_no_mutation storeW 0 1 [] (fun _ => Except.error ()) 2 3 4 5
    1 1 0 8 {} 0 ratSqrt (by decide) (by decide) (by decide) (by decide)
    (by decide) (by decide)

theorem c2_seed_grid (i j : ℕ) :
    initialize_grid [(0, 0)] rowcolC2 10 10 cfgC2.seed_strength i j
      = if i = 5 ∧ j = 5 then 1 else 0 := by
  have h5 : ((5 : ℤ)).toNat = 5 := rfl
  show placeHotspot rowcolC2 10 10 cfgC2.seed_strength (fun _ _ => 0) (0, 0) i j
    = if i = 5 ∧ j = 5 then 1 else 0
  norm_num [placeHotspot, rowcolC2, setCell, cfgC2, h5]

theorem neighborMask_eq_setNeighborMask (H W : ℕ) (g : Grid)
    (B : ℕ → ℕ → Bool) (nb : ℕ)
    (hB : ∀ a b : ℕ, a < H → b < W → (0 < g a b ↔ B a b = true)) (i j : ℕ) :
    neighborMask H W g nb i j = setNeighborMask H W B nb i j := by
  unfold neighborMask setNeighborMask
  rw [Bool.eq_iff_iff, List.any_eq_true, List.any_eq_true]
  constructor
  · rintro ⟨d, hd, hpred⟩
    refine ⟨d, hd, ?_⟩
    simp only [Bool.and_eq_true, decide_eq_true_eq] at hpred ⊢
    obtain ⟨⟨⟨⟨h1, h2⟩, h3⟩, h4⟩, h5⟩ := hpred
    exact ⟨⟨⟨⟨h1, h2⟩, h3⟩, h4⟩,
      (hB _ _ (by omega) (by omega)).mp h5⟩
  · rintro ⟨d, hd, hpred⟩
    refine ⟨d, hd, ?_⟩
    simp only [Bool.and_eq_true, decide_eq_true_eq] at hpred ⊢
    obtain ⟨⟨⟨⟨h1, h2⟩, h3⟩, h4⟩, h5⟩ := hpred
    exact ⟨⟨⟨⟨h1, h2⟩, h3⟩, h4⟩,
      (hB _ _ (by omega) (by omega)).mpr h5⟩

theorem burn_step (H W : ℕ) (g pot : Grid) (th : ℚ) (nb : ℕ)
    (hth : 0 < th)
    (hpot : ∀ a b : ℕ, a < H → b < W → th < pot a b)
    (B : ℕ → ℕ → Bool)
    (hB : ∀ a b : ℕ, a < H → b < W → (0 < g a b ↔ B a b = true))
    (i j : ℕ) (hi : i < H) (hj : j < W) :
    (0 < propagate_spread H W g pot th nb i j
      ↔ nextBurn H W B nb i j = true) := by
  have hmask := neighborMask_eq_setNeighborMask H W g B nb hB i j
  cases hc : canSpread H W g pot th nb i j with
  | true =>
      rw [propagate_spread_pos H W g pot th nb i j hc]
      have hcs := (canSpread_iff H W g pot th nb i j).mp hc
      have hmt : setNeighborMask H W B nb i j = true := by
        rw [← hmask]
        exact hcs.2.2.2.1
      constructor
      · intro _
        unfold nextBurn
        simp [hi, hj, hmt]
      · intro _
        exact lt_trans hth (hcs.2.2.1)
  | false =>
      rw [propagate_spread_neg H W g pot th nb i j hc]
      by_cases hact : 0 < g i j
      · have hBt := (hB i j hi hj).mp hact
        unfold nextBurn
        simp [hBt, hact]
      · have hBf : B i j = false := by
          cases hval : B i j with
          | false => rfl
          | true => exact absurd ((hB i j hi hj).mpr hval) hact
        have hnm : neighborMask H W g nb i j = false := by
          cases hval : neighborMask H W g nb i j with
          | false => rfl
          | true =>
              have : canSpread H W g pot th nb i j = true :=
                (canSpread_iff H W g pot th nb i j).mpr
                  ⟨hi, hj, hpot i j hi hj, hval, hact⟩
              rw [hc] at this
              exact absurd this Bool.false_ne_true
        rw [hmask] at hnm
        unfold nextBurn
        simp [hBf, hnm, hact]

theorem c2_dilate_1 : ∀ i : ℕ, i < 10 → ∀ j : ℕ, j < 10 →
    nextBurn 10 10 seedB 8 i j = ballOneB i j := by
  decide

theorem c2_dilate_2 : ∀ i : ℕ, i < 10 → ∀ j : ℕ, j < 10 →
    nextBurn 10 10 ballOneB 8 i j = ballTwoB i j := by
  decide

theorem c2_dilate_3 : ∀ i : ℕ, i < 10 → ∀ j : ℕ, j < 10 →
    nextBurn 10 10 ballTwoB 8 i j = blockB i j := by
  decide

theorem c2_rh_bounds (rng : ℕ → ℕ → ℚ)
    (hrng : ∀ k : ℕ, 0 ≤ rng 0 k ∧ rng 0 k ≤ 1) (i j : ℕ) :
    36 ≤ (perturb_weather (constGrid 5) (constGrid 0) (constGrid 295)
        (constGrid 40) {} 0 10 10 rng).2.2.2 i j
      ∧ (perturb_weather (constGrid 5) (constGrid 0) (constGrid 295)
        (constGrid 40) {} 0 10 10 rng).2.2.2 i j ≤ 44 := by
  have hu := hrng (3 * (10 * 10) + (i * 10 + j))
  show 36 ≤ clip (40 * (1 + uniformDraw (-(1/10)) (1/10)
      (rng 0 (3 * (10 * 10) + (i * 10 + j))))) 0 100
    ∧ clip (40 * (1 + uniformDraw (-(1/10)) (1/10)
      (rng 0 (3 * (10 * 10) + (i * 10 + j))))) 0 100 ≤ 44
  have hval : 36 ≤ 40 * (1 + uniformDraw (-(1/10)) (1/10)
      (rng 0 (3 * (10 * 10) + (i * 10 + j))))
      ∧ 40 * (1 + uniformDraw (-(1/10)) (1/10)
      (rng 0 (3 * (10 * 10) + (i * 10 + j)))) ≤ 44 := by
    unfold uniformDraw
    constructor <;> nlinarith [hu.1, hu.2]
  rw [clip_eq_self _ _ _ (by linarith [hval.1]) (by linarith [hval.2])]
  exact hval

theorem compute_spread_potential_gt_of (sq : ℚ → ℚ) (wu wv sl rh : Grid)
    (cfg : Config) (i j : ℕ) (c : ℚ) (hc : c < 1)
    (hw : 0 ≤ cfg.wind_weight)
    (hsum : c < cfg.slope_weight * clip (sl i j / cfg.slope_max_deg) 0 1
      + cfg.dryness_weight * clip ((100 - rh i j) / 100) 0 1) :
    c < compute_spread_potential sq wu wv sl rh cfg i j := by
  unfold compute_spread_potential
  apply lt_clip_zero_one _ _ _ hc
  have hwf : 0 ≤ cfg.wind_weight * clip (sq (wu i j ^ 2 + wv i j ^ 2) / 20) 0 1 :=
    mul_nonneg hw (lo_le_clip _ _ _ (by norm_num))
  linarith

theorem c2_pot_gt (rng : ℕ → ℕ → ℚ) (sq : ℚ → ℚ)
    (hrng : ∀ k : ℕ, 0 ≤ rng 0 k ∧ rng 0 k ≤ 1) (i j : ℕ) :
    (1 : ℚ)/10 < compute_spread_potential sq
      (perturb_weather (constGrid 5) (constGrid 0) (constGrid 295)
        (constGrid 40) {} 0 10 10 rng).1
      (perturb_weather (constGrid 5) (constGrid 0) (constGrid 295)
        (constGrid 40) {} 0 10 10 rng).2.1
      (constGrid 10)
      (perturb_weather (constGrid 5) (constGrid 0) (constGrid 295)
        (constGrid 40) {} 0 10 10 rng).2.2.2
      cfgC2 i j := by
  have hrh := c2_rh_bounds rng hrng i j
  refine compute_spread_potential_gt_of sq _ _ _ _ cfgC2 i j (1/10)
    (by norm_num) (by norm_num [cfgC2]) ?_
  have hsl : clip (constGrid 10 i j / cfgC2.slope_max_deg) 0 1 = 10/45 := by
    show clip ((10 : ℚ) / 45) 0 1 = 10/45
    exact clip_eq_self _ _ _ (by norm_num) (by norm_num)
  have hdf : (14 : ℚ)/25 ≤ clip ((100 - (perturb_weather (constGrid 5)
      (constGrid 0) (constGrid 295) (constGrid 40) {} 0 10 10 rng).2.2.2 i j)
      / 100) 0 1 := by
    rw [clip_eq_self _ _ _ (by linarith [hrh.2]) (by linarith [hrh.1])]
    linarith [hrh.2]
  have hsw : cfgC2.slope_weight = 3/10 := rfl
  have hdw : cfgC2.dryness_weight = 1/5 := rfl
  rw [hsl, hsw, hdw]
  linarith [hdf]

theorem c2_member_burned (rng : ℕ → ℕ → ℚ) (sq : ℚ → ℚ)
    (hrng : ∀ k : ℕ, 0 ≤ rng 0 k ∧ rng 0 k ≤ 1) (i j : ℕ)
    (hi : i < 10) (hj : j < 10) :
    (0 < mcMember [(0, 0)] rowcolC2 (constGrid 5) (constGrid 0)
        (constGrid 295) (constGrid 10) (constGrid 40) 10 10 cfgC2 {} 0 3
        rng sq 0 i j
      ↔ blockB i j = true) := by
  set pot : Grid := compute_spread_potential sq
    (perturb_weather (constGrid 5) (constGrid 0) (constGrid 295)
      (constGrid 40) {} 0 10 10 rng).1
    (perturb_weather (constGrid 5) (constGrid 0) (constGrid 295)
      (constGrid 40) {} 0 10 10 rng).2.1
    (constGrid 10)
    (perturb_weather (constGrid 5) (constGrid 0) (constGrid 295)
      (constGrid 40) {} 0 10 10 rng).2.2.2
    cfgC2 with hpot_def
  set g0 : Grid := initialize_grid [(0, 0)] rowcolC2 10 10 1 with hg0_def
  have hmg : mcMember [(0, 0)] rowcolC2 (constGrid 5) (constGrid 0)
      (constGrid 295) (constGrid 10) (constGrid 40) 10 10 cfgC2 {} 0 3
      rng sq 0
      = (fun g => propagate_spread 10 10 g pot (1/10) 8)^[3] g0 := by
    show ((stepPair (fun g => propagate_spread 10 10 g pot (1/10) 8))^[3]
      (g0, g0)).2 = _
    rw [stepPair_iterate_snd (fun g => propagate_spread 10 10 g pot (1/10) 8)
      (fun g a b => le_propagate_spread 10 10 g pot (1/10) 8 a b
        (by rw [hpot_def]
            exact compute_spread_potential_nonneg sq _ _ _ _ cfgC2 a b))
      3 (g0, g0) rfl, stepPair_iterate_fst]
  have hpotgt : ∀ a b : ℕ, a < 10 → b < 10 → (1 : ℚ)/10 < pot a b :=
    fun a b _ _ => c2_pot_gt rng sq hrng a b
  have hth : (0 : ℚ) < 1/10 := by norm_num
  have hB0 : ∀ a b : ℕ, a < 10 → b < 10 → (0 < g0 a b ↔ seedB a b = true) := by
    intro a b _ _
    rw [hg0_def]
    show 0 < initialize_grid [(0, 0)] rowcolC2 10 10 cfgC2.seed_strength a b
      ↔ seedB a b = true
    rw [c2_seed_grid]
    unfold seedB
    by_cases h : a = 5 ∧ b = 5
    · simp [h.1, h.2]
    · rw [if_neg h]
      simp only [Bool.and_eq_true, decide_eq_true_eq]
      exact iff_of_false (lt_irrefl 0) (fun hc => h hc)
  have hb1 : ∀ a b : ℕ, a < 10 → b < 10 →
      (0 < propagate_spread 10 10 g0 pot (1/10) 8 a b ↔ ballOneB a b = true) := by
    intro a b ha hb
    rw [burn_step 10 10 g0 pot (1/10) 8 hth hpotgt seedB hB0 a b ha hb]
    rw [c2_dilate_1 a ha b hb]
  have hb2 : ∀ a b : ℕ, a < 10 → b < 10 →
      (0 < propagate_spread 10 10 (propagate_spread 10 10 g0 pot (1/10) 8)
          pot (1/10) 8 a b ↔ ballTwoB a b = true) := by
    intro a b ha hb
    rw [burn_step 10 10 _ pot (1/10) 8 hth hpotgt ballOneB hb1 a b ha hb]
    rw [c2_dilate_2 a ha b hb]
  have hb3 : ∀ a b : ℕ, a < 10 → b < 10 →
      (0 < propagate_spread 10 10 (propagate_spread 10 10
          (propagate_spread 10 10 g0 pot (1/10) 8) pot (1/10) 8)
          pot (1/10) 8 a b ↔ blockB a b = true) := by
    intro a b ha hb
    rw [burn_step 10 10 _ pot (1/10) 8 hth hpotgt ballTwoB hb2 a b ha hb]
    rw [c2_dilate_3 a ha b hb]
  have hit : (fun g => propagate_spread 10 10 g pot (1/10) 8)^[3] g0
      = propagate_spread 10 10 (propagate_spread 10 10
          (propagate_spread 10 10 g0 pot (1/10) 8) pot (1/10) 8)
          pot (1/10) 8 := rfl
  rw [hmg, hit]
  exact hb3 i j hi hj

/-- C2: the concrete end-to-end scenario.  On the 10×10 grid with constant
fields `wind_u = 5`, `wind_v = 0`, `temp = 295`, `rh = 40`, `slope = 10`, a
single detection at the center cell (5,5), `n_timesteps = 3`,
`neighbors = 8`, `spread_threshold = 0.1`, `n_ensemble = 1`, `base_seed = 0`,
`run_monte_carlo_ensemble` returns a probability grid equal to 1 exactly on
the 7×7 block centered on the seed and 0 elsewhere, and an uncertainty grid
equal to 0 everywhere.  The only assumptions on the modelled numpy
primitives are that the standard-uniform draws lie in `[0, 1]` and that the
square root of 0 is 0 — the perturbed humidity then stays in `[36, 44]`, so
every cell's potential exceeds the threshold whatever the draws, and the
burned region is the Chebyshev ball growing one ring per timestep. -/
theorem claim_C2_concrete_scenario (rng : ℕ → ℕ → ℚ) (sq : ℚ → ℚ)
    (hrng : ∀ k : ℕ, 0 ≤ rng 0 k ∧ rng 0 k ≤ 1) (hsq0 : sq 0 = 0)
    (i j : ℕ) (hi : i < 10) (hj : j < 10) :
    (run_monte_carlo_ensemble [(0, 0)] rowcolC2 (constGrid 5) (constGrid 0)
        (constGrid 295) (constGrid 10) (constGrid 40) 10 10 cfgC2 {} 1 0 3
        rng sq).1 i j
      = (if 2 ≤ i ∧ i ≤ 8 ∧ 2 ≤ j ∧ j ≤ 8 then 1 else 0)
    ∧ (run_monte_carlo_ensemble [(0, 0)] rowcolC2 (constGrid 5) (constGrid 0)
        (constGrid 295) (constGrid 10) (constGrid 40) 10 10 cfgC2 {} 1 0 3
        rng sq).2.2 i j = 0 := by
  have hm := c2_member_burned rng sq hrng i j hi hj
  have hr : List.range 1 = [0] := rfl
  constructor
  · by_cases hblk : 2 ≤ i ∧ i ≤ 8 ∧ 2 ≤ j ∧ j ≤ 8
    · have hbt : blockB i j = true := by
        unfold blockB
        simp [hblk.1, hblk.2.1, hblk.2.2.1, hblk.2.2.2]
      have hMpos := hm.mpr hbt
      simp only [run_monte_carlo_ensemble]
      rw [hr]
      simp only [List.map_cons, List.map_nil, List.countP_cons, List.countP_nil]
      rw [if_pos hblk, decide_eq_true hMpos, if_pos rfl]
      norm_num
    · have hbf : blockB i j = false := by
        cases hval : blockB i j with
        | false => rfl
        | true =>
            exfalso
            unfold blockB at hval
            simp only [Bool.and_eq_true, decide_eq_true_eq] at hval
            exact hblk ⟨hval.1.1.1, hval.1.1.2, hval.1.2, hval.2⟩
      have hMnon : ¬ 0 < mcMember [(0, 0)] rowcolC2 (constGrid 5)
          (constGrid 0) (constGrid 295) (constGrid 10) (constGrid 40) 10 10
          cfgC2 {} 0 3 rng sq 0 i j :=
        fun hp => absurd (hm.mp hp) (by rw [hbf]; exact Bool.false_ne_true)
      simp only [run_monte_carlo_ensemble]
      rw [hr]
      simp only [List.map_cons, List.map_nil, List.countP_cons, List.countP_nil]
      rw [if_neg hblk, decide_eq_false hMnon, if_neg Bool.false_ne_true]
      norm_num
  · simp only [run_monte_carlo_ensemble]
    rw [hr]
    simp only [List.map_cons, List.map_nil, List.sum_cons, List.sum_nil]
    have hz : ((mcMember [(0, 0)] rowcolC2 (constGrid 5) (constGrid 0)
        (constGrid 295) (constGrid 10) (constGrid 40) 10 10 cfgC2 {} 0 3
        rng sq 0 i j
        - (mcMember [(0, 0)] rowcolC2 (constGrid 5) (constGrid 0)
        (constGrid 295) (constGrid 10) (constGrid 40) 10 10 cfgC2 {} 0 3
        rng sq 0 i j + 0) / ((1 : ℕ) : ℚ)) ^ 2 + 0) / ((1 : ℕ) : ℚ) = 0 := by
      push_cast
      ring
    rw [hz, hsq0]

/-- Witness for C2 at a concrete input: the zero random stream (all draws 0,
inside `[0, 1]`) and `ratSqrt`, evaluated at the seed cell (5,5). -/
theorem claim_C2_witness :
    (run_monte_carlo_ensemble [(0, 0)] rowcolC2 (constGrid 5) (constGrid 0)
        (constGrid 295) (constGrid 10) (constGrid 40) 10 10 cfgC2 {} 1 0 3
        (fun _ _ => 0) ratSqrt).1 5 5
      = (if 2 ≤ 5 ∧ 5 ≤ 8 ∧ 2 ≤ 5 ∧ 5 ≤ 8 then 1 else 0)
    ∧ (run_monte_carlo_ensemble [(0, 0)] rowcolC2 (constGrid 5) (constGrid 0)
        (constGrid 295) (constGrid 10) (constGrid 40) 10 10 cfgC2 {} 1 0 3
        (fun _ _ => 0) ratSqrt).2.2 5 5 = 0 :=
  claim_C2_concrete_scenario (fun _ _ => 0) ratSqrt
    (fun _ => ⟨le_refl 0, zero_le_one⟩) ratSqrt_zero 5 5
    (by norm_num) (by norm_num)
